import Mathlib

/-
  Verification of the table-assignment engine of this repository against its
  specification.  The repository contains several iterations of the same
  assignment logic:

    * tableAssignments.py      (namespace Plain below)
    * tableAssignments_v1.py   (namespace V1)
    * tableAssignments_v2.py   (namespace V2)
    * tableAssignments_v3.py   (namespace V3)

  The embedding is shallow: Python objects become Lean structures, mutation
  becomes explicit state passing, exceptions become Except / an Option error
  component (when partially mutated state must survive the exception, as it
  does for the caller of a Python method that raised).  Python ints are
  modeled as Nat (all quantities involved are non-negative counts and ids),
  dicts as association lists, deques as lists.  The unseeded random.shuffle
  calls and the iteration order of Python sets are modeled as explicit
  parameters (a shuffled list, or a permutation function), since they are
  inputs the program does not control.
-/

/-- Python exception kinds raised by the modeled code paths. -/
inductive PyErr where
  | attributeError
  | valueError
  | indexError
  | zeroDivisionError
deriving DecidableEq, Repr

/-- Lookup in an association list (Python dict access returning the value for
a key, if present). -/
def alookup {α β : Type} [DecidableEq α] : List (α × β) → α → Option β
  | [], _ => none
  | (k, v) :: rest, a => if k = a then some v else alookup rest a

/-- Python defaultdict(int) increment d[k] += 1: updates the entry in place
if present (preserving dict insertion order), otherwise appends it with
value 1. -/
def bump {α : Type} [DecidableEq α] : List (α × Nat) → α → List (α × Nat)
  | [], a => [(a, 1)]
  | (k, v) :: rest, a => if k = a then (k, v + 1) :: rest else (k, v) :: bump rest a

/-- Python dict assignment d[k] = v: replaces the value in place if the key
is present (preserving insertion order), otherwise appends. -/
def aset {α β : Type} [DecidableEq α] : List (α × β) → α → β → List (α × β)
  | [], a, b => [(a, b)]
  | (k, v) :: rest, a, b => if k = a then (k, b) :: rest else (k, v) :: aset rest a b

namespace Plain

/-- Filenames are modeled as lists of characters.  The literal
"Schedule.csv" from the pattern in parse_filename (tableAssignments.py
line 9). -/
def schedLit : List Char :=
  ['S', 'c', 'h', 'e', 'd', 'u', 'l', 'e', '.', 'c', 's', 'v']

/-- One group of the regex pattern: a nonempty run of digits followed by a
literal dash.  re backtracking cannot produce any other decomposition here:
shortening a greedy digit run leaves a digit where the dash is required, so
the greedy parse is the only possible one. -/
def parse_group (l : List Char) : Option (List Char × List Char) :=
  let g := l.takeWhile Char.isDigit
  let r := l.dropWhile Char.isDigit
  if g = [] then none
  else
    match r with
    | '-' :: rest => some (g, rest)
    | _ => none

/-- Consume an exact literal off the front of the input, returning the
remainder. -/
def expect_lit : List Char → List Char → Option (List Char)
  | [], s => some s
  | _ :: _, [] => none
  | c :: cs, d :: ds => if c = d then expect_lit cs ds else none

/-- parse_filename (tableAssignments.py lines 7-13): re.match of the pattern
digits-digits-digits-digits-digits-Schedule.csv against the start of the
filename, returning the five captured digit groups.  re.match anchors only
at the start of the string, so any trailing characters after the literal
"Schedule.csv" are ignored.  Python \d is modeled as the ASCII digit test. -/
def parse_filename (s : List Char) :
    Option (List Char × List Char × List Char × List Char × List Char) := do
  let (g1, r1) ← parse_group s
  let (g2, r2) ← parse_group r1
  let (g3, r3) ← parse_group r2
  let (g4, r4) ← parse_group r3
  let (g5, r5) ← parse_group r4
  let _ ← expect_lit schedLit r5
  some (g1, g2, g3, g4, g5)

/-- The fixed resource pool of tableAssignments.py line 27. -/
def table_pairs : List String := ["1-2", "3-4", "5-6", "7-8"]

/-- itertools.combinations(pool, k): all k-element subsequences, in the order
itertools emits them (lexicographic by position in the pool). -/
def combinations {α : Type} : Nat → List α → List (List α)
  | 0, _ => [[]]
  | _ + 1, [] => []
  | k + 1, x :: xs => (combinations k xs).map (x :: ·) ++ combinations (k + 1) xs

/-- str.split('-') on the underlying characters (single-character
separator): Python semantics, so "" splits to [""] and separators at the
ends produce empty parts.  Implemented on the character list so that the
kernel can evaluate it (String.splitOn does not reduce definitionally). -/
def split_on_dash : List Char → List (List Char)
  | [] => [[]]
  | c :: cs =>
    if c = '-' then [] :: split_on_dash cs
    else
      match split_on_dash cs with
      | [] => [[c]]
      | g :: gs => (c :: g) :: gs

/-- match.split('-') with unpacking into exactly two names
(tableAssignments.py line 47); any other number of parts raises ValueError. -/
def split_match (s : String) : Except PyErr (String × String) :=
  match split_on_dash s.data with
  | [h, a] => .ok (⟨h⟩, ⟨a⟩)
  | _ => .error .valueError

/-- The mutable accumulator state of assign_tables: the global
table_usage_count (per team, per table) and table_history (per team, a deque
of tables with maxlen 20). -/
structure PState where
  usage : List ((String × String) × Nat)
  hist : List (String × List String)
deriving DecidableEq, Repr

/-- Usage count lookup: table_usage_count[team][table], defaulting to 0. -/
def getU (st : PState) (team table : String) : Nat :=
  (alookup st.usage (team, table)).getD 0

/-- History lookup: table_history[team], defaulting to the empty deque. -/
def getH (st : PState) (team : String) : List String :=
  (alookup st.hist team).getD []

/-- deque(maxlen=20).append: append on the right, dropping from the left
once the length exceeds 20. -/
def deque_append (l : List String) (t : String) : List String :=
  let l2 := l ++ [t]
  if 20 < l2.length then l2.drop (l2.length - 20) else l2

/-- The hard-constraint test of tableAssignments.py lines 48-50: the table
must differ from each team's most recent history entry (teams with no
history pass), and the two teams' usage counts on this table must differ by
at most 3. -/
def check_ok (st : PState) (home away table : String) : Bool :=
  (match (getH st home).getLast? with
   | none => true
   | some x => !(x = table)) &&
  (match (getH st away).getLast? with
   | none => true
   | some x => !(x = table)) &&
  decide (((getU st home table : Int) - (getU st away table : Int)).natAbs ≤ 3)

/-- Commit of lines 51-55: record the assignment in week_assignments,
increment both teams' usage counts on the table and append the table to
both teams' histories. -/
def commit (st : PState) (home away table : String) : PState :=
  let h1 := aset st.hist home (deque_append (getH st home) table)
  let h2 := aset h1 away (deque_append ((alookup h1 away).getD []) table)
  { usage := bump (bump st.usage (home, table)) (away, table), hist := h2 }

/-- The inner `for table in combo` loop (lines 45-57): the first table of
the combo passing check_ok is committed and the loop breaks; the split of
the match string happens inside the loop, so a malformed match string only
raises when at least one table is examined. -/
def try_combo (st : PState) (wa : List (String × String)) (m : String) :
    List String → Except PyErr (Option (PState × List (String × String) × String))
  | [] => .ok none
  | t :: ts =>
    match split_match m with
    | .error e => .error e
    | .ok (home, away) =>
      if check_ok st home away t then
        .ok (some (commit st home away t, aset wa m t, t))
      else
        try_combo st wa m ts

/-- The outer `for combo in available_tables_combo` loop (lines 44-58): the
inner break leaves this loop running, so after a successful assignment the
remaining combos are still tried against the already-updated state and can
re-assign the same match to a later table, overwriting week_assignments[m]
and committing usage and history again. -/
def run_combos (st : PState) (wa : List (String × String)) (used : Option String)
    (m : String) :
    List (List String) →
    Except PyErr (PState × List (String × String) × Option String)
  | [] => .ok (st, wa, used)
  | c :: cs =>
    match try_combo st wa m c with
    | .error e => .error e
    | .ok (some (st2, wa2, t)) => run_combos st2 wa2 (some t) m cs
    | .ok none => run_combos st wa used m cs

/-- The `for match in matches` loop (lines 41-60).  available_tables_combo
is an itertools iterator: the first match's combo loop exhausts it, so later
matches see an empty iterator; and if a table was assigned,
available_tables_combo.remove(used_table) raises AttributeError, because
combinations objects have no remove method. -/
def week_matches_loop (st : PState) (wa : List (String × String))
    (used : Option String) (combos : List (List String)) :
    List String → Except PyErr (PState × List (String × String))
  | [] => .ok (st, wa)
  | m :: ms =>
    if used.isSome then .error .attributeError
    else
      match run_combos st wa used m combos with
      | .error e => .error e
      | .ok (st2, wa2, used2) => week_matches_loop st2 wa2 used2 [] ms

/-- One iteration of the `while schedule` loop (lines 36-61).  A schedule
row is (week_number, match_date, matches).  `assignments.append` runs once
per match and appends a reference to the week's dict, so on the paths that
return, the output holds one copy of the final week_assignments per match
of the week. -/
def assign_week (st : PState) (row : String × String × List String) :
    Except PyErr (PState × List (String × String × List (String × String))) :=
  match row with
  | (wn, date, ms) =>
    match week_matches_loop st [] none (combinations ms.length table_pairs) ms with
    | .error e => .error e
    | .ok (st2, wa) => .ok (st2, List.replicate ms.length (wn, date, wa))

/-- Loop body over the whole schedule, threading the global accumulators. -/
def assign_tables_go (st : PState) :
    List (String × String × List String) →
    Except PyErr (List (String × String × List (String × String)))
  | [] => .ok []
  | r :: rs =>
    match assign_week st r with
    | .error e => .error e
    | .ok (st2, out) =>
      match assign_tables_go st2 rs with
      | .error e => .error e
      | .ok rest => .ok (out ++ rest)

/-- assign_tables (tableAssignments.py lines 25-62) on an already-parsed
schedule: fresh global accumulators, then the week loop. -/
def assign_tables (schedule : List (String × String × List String)) :
    Except PyErr (List (String × String × List (String × String))) :=
  assign_tables_go ⟨[], []⟩ schedule

end Plain

namespace V1

/-- Table (tableAssignments_v1.py lines 9-26): a table id, the per-team
usage counts (defaultdict(int)) and the list of recent teams
(last_used_by). -/
structure Table where
  table_id : Nat
  team_usage : List (Nat × Nat)
  last_used_by : List Nat
deriving DecidableEq, Repr

/-- Table.add_team (v1 lines 15-18): increment the team's usage count and
append the team to last_used_by. -/
def Table.add_team (t : Table) (team : Nat) : Table :=
  { t with
    team_usage := bump t.team_usage team,
    last_used_by := t.last_used_by ++ [team] }

/-- Table.get_usage (v1 lines 20-22): defaultdict lookup, 0 when absent. -/
def Table.get_usage (t : Table) (team : Nat) : Nat :=
  (alookup t.team_usage team).getD 0

/-- Match (v1 lines 28-44): the two team ids and the assigned table,
modeled by the table id of the referenced Table object. -/
structure Match where
  home_team : Nat
  away_team : Nat
  assigned_table : Option Nat
deriving DecidableEq, Repr

/-- The bye test of v1 line 77: str(team) == str(bye_team_id).  When
bye_team_id is None, str(None) never equals str of an int, so no match is
a bye match. -/
def is_bye (bye : Option Nat) (m : Match) : Bool :=
  match bye with
  | some b => b == m.home_team || b == m.away_team
  | none => false

/-- Week.find_best_table (v1 lines 102-173).  Line 104 returns None when
available_tables is empty.  Otherwise line 108 evaluates len(self.tables):
Week.__init__ (lines 47-58) defines available_tables, num_teams,
bye_team_id, previous_week, total_weeks, global_usage, team_least_used and
total_tables but never a tables attribute, and no other method assigns one,
so the attribute access raises AttributeError and the scoring code on lines
109-173 is unreachable on every call with a nonempty available set. -/
def find_best_table (available : List Table) : Except PyErr (Option Table) :=
  if available.isEmpty then .ok none else .error .attributeError

/-- The `for match in self.matches` loop of Week.assign_tables (v1 lines
76-84): bye matches are skipped; otherwise find_best_table is consulted; a
returned table would be assigned (Match.assign_table, which also calls
add_team for both teams) and removed from the available set, and a None
result raises ValueError.  Since find_best_table never returns a table, the
assignment branch is unreachable. -/
def assign_tables_go (bye : Option Nat) (available : List Table) :
    List Match → Except PyErr (List Match)
  | [] => .ok []
  | m :: ms =>
    if is_bye bye m then
      match assign_tables_go bye available ms with
      | .error e => .error e
      | .ok rest => .ok (m :: rest)
    else
      match find_best_table available with
      | .error e => .error e
      | .ok none => .error .valueError
      | .ok (some t) =>
        match assign_tables_go bye (available.erase t) ms with
        | .error e => .error e
        | .ok rest => .ok ({ m with assigned_table := some t.table_id } :: rest)

/-- Week.assign_tables (v1 lines 71-84): available_tables is the set of all
pool tables (line 73), then the match loop runs.  Returns the week's
matches after the loop. -/
def assign_tables (bye : Option Nat) (tables : List Table) (ms : List Match) :
    Except PyErr (List Match) :=
  assign_tables_go bye tables ms

/-- The row filter of v1 read_schedule line 277: rows shorter than 2 cells
or labeled "No Play" / "Playoff Week" are skipped. -/
def valid_row (r : List String) : Bool :=
  match r with
  | _ :: d :: _ => !(d = "No Play" || d = "Playoff Week")
  | _ => false

/-- v1 read_schedule line 291: self.total_weeks = len(rows) + 1, where rows
are the rows that survived the filter — one more than the number of loaded
periods. -/
def total_weeks (rows : List (List String)) : Nat :=
  (rows.filter valid_row).length + 1

/-- v1 find_best_table line 109: ideal_usage_per_table =
self.total_weeks // total_tables, Python floor division, with total_tables
the size of the table pool (the intent stated by the comment on line 108). -/
def ideal_usage_per_table (totalWeeks totalTables : Nat) : Nat :=
  totalWeeks / totalTables

/-- The division configuration consumed by TableAssignmentManager
(config JSON fields used by initialize_team_names and initialize_tables,
v1 lines 231-256).  bye_team_id is None when the key is absent. -/
structure Config where
  table_ids : List Nat
  table_keys : List String
  team_ids : List Nat
  team_keys : List String
  bye_team_id : Option Nat
deriving DecidableEq, Repr

/-- Python str.lower on the underlying characters (initialize_team_names,
v1 line 256). -/
def str_lower (s : String) : String := ⟨s.data.map Char.toLower⟩

/-- initialize_team_names fallback search continued: the bye team id comes
from the config when present, otherwise from the index of the first team
key equal to "bye" case-insensitively.  str.lower is modeled by str_lower
(character-wise, kernel-computable). -/
def init_team_names_bye (cfg : Config) : Option Nat :=
  match cfg.bye_team_id with
  | some b => some b
  | none => cfg.team_keys.findIdx? (fun k => str_lower k == "bye")

/-- Python truthiness of the optional bye id (v1 line 236,
`if self.bye_team_id:`): None and 0 are falsy. -/
def truthy (o : Option Nat) : Bool :=
  match o with
  | some n => !(n == 0)
  | none => false

/-- initialize_tables (v1 lines 231-243): the pool-size check
len(table_ids) + tableByeOffset < num_teams // 2 raises ValueError, else the
table map is built by zipping keys and ids.  The num_teams argument makes
explicit what the check reads; __init__ calls this before read_schedule has
run, when self.num_teams is still 0. -/
def init_tables (cfg : Config) (bye : Option Nat) (num_teams : Nat) :
    Except PyErr (List (String × Nat)) :=
  let off := if truthy bye then 1 else 0
  if cfg.table_ids.length + off < num_teams / 2 then .error .valueError
  else .ok (cfg.table_keys.zip cfg.table_ids)

/-- int(s) for the team tokens of the schedule (v1 line 283); a
non-numeric token raises ValueError. -/
def parse_int (s : String) : Except PyErr Nat :=
  if s.data ≠ [] ∧ s.data.all Char.isDigit then
    .ok (s.data.foldl (fun n c => n * 10 + (c.toNat - 48)) 0)
  else .error .valueError

/-- Team extraction from one row's match strings (v1 lines 282-285):
each is split on the dash and both sides parsed as ints. -/
def row_teams : List String → Except PyErr (List Nat)
  | [] => .ok []
  | s :: rest =>
    match Plain.split_match s with
    | .error e => .error e
    | .ok (h, a) =>
      match parse_int h, parse_int a with
      | .ok hn, .ok an =>
        match row_teams rest with
        | .error e => .error e
        | .ok others => .ok (hn :: an :: others)
      | .error e, _ => .error e
      | _, .error e => .error e

/-- First pass of read_schedule (v1 lines 273-285): collect the team ids of
every valid row (a row's matches are its cells from the third on). -/
def schedule_teams : List (List String) → Except PyErr (List Nat)
  | [] => .ok []
  | r :: rs =>
    if valid_row r then
      match row_teams (r.drop 2) with
      | .error e => .error e
      | .ok ts =>
        match schedule_teams rs with
        | .error e => .error e
        | .ok rest => .ok (ts ++ rest)
    else schedule_teams rs

/-- read_schedule (v1 lines 286-291): num_teams is the cardinality of the
team set; an odd count raises ValueError. -/
def read_schedule_num_teams (rows : List (List String)) : Except PyErr Nat :=
  match schedule_teams rows with
  | .error e => .error e
  | .ok ts =>
    let n := ts.dedup.length
    if n % 2 = 1 then .error .valueError else .ok n

/-- The manager state produced by a completed __init__. -/
structure ManagerState where
  bye : Option Nat
  tables : List (String × Nat)
  num_teams : Nat
deriving DecidableEq, Repr

/-- TableAssignmentManager.__init__ (v1 lines 192-203) after filename
validation: initialize_team_names, then initialize_tables, then
read_schedule — in that order, so the pool-size check inside
initialize_tables runs while num_teams is still its initial value 0. -/
def manager_init (cfg : Config) (rows : List (List String)) :
    Except PyErr ManagerState :=
  let bye := init_team_names_bye cfg
  match init_tables cfg bye 0 with
  | .error e => .error e
  | .ok tables =>
    match read_schedule_num_teams rows with
    | .error e => .error e
    | .ok n => .ok ⟨bye, tables, n⟩

end V1

namespace V2

/-- Table (tableAssignments_v2.py lines 9-33): table id, per-team usage
counts and the last_used_by list. -/
structure Table where
  table_id : Nat
  team_usage : List (Nat × Nat)
  last_used_by : List Nat
deriving DecidableEq, Repr

/-- Table.add_team (v2 lines 15-18). -/
def Table.add_team (t : Table) (team : Nat) : Table :=
  { t with
    team_usage := bump t.team_usage team,
    last_used_by := t.last_used_by ++ [team] }

/-- Table.get_usage (v2 lines 20-22). -/
def Table.get_usage (t : Table) (team : Nat) : Nat :=
  (alookup t.team_usage team).getD 0

/-- Table.get_total_usage (v2 lines 24-26): sum of all usage counts. -/
def Table.get_total_usage (t : Table) : Nat :=
  (t.team_usage.map (·.2)).sum

/-- Table.was_recently_used_by (v2 lines 28-33): counts how many trailing
entries of last_used_by equal the team.  The while condition indexes
last_used_by[-(recent_usage + 1)], so when every entry equals the team the
loop walks past the start of the list and raises IndexError. -/
def Table.was_recently_used_by (t : Table) (team : Nat) : Except PyErr Nat :=
  let k := (t.last_used_by.reverse.takeWhile (fun x => x == team)).length
  if !t.last_used_by.isEmpty && k == t.last_used_by.length then .error .indexError
  else .ok k

/-- Python tuple comparison on the three-component score of v2
find_best_table: lexicographic strict order. -/
def key_lt (a b : Nat × Nat × Nat) : Bool :=
  if a.1 < b.1 then true
  else if b.1 < a.1 then false
  else if a.2.1 < b.2.1 then true
  else if b.2.1 < a.2.1 then false
  else decide (a.2.2 < b.2.2)

/-- The score tuple of one table for one match (v2 lines 100-126): the
match_usage ratio from the first loop ((home + away) // total when total is
positive, else 0), then the recently-used count and the combined usage of
the second loop.  Matches are (home_team, away_team) pairs. -/
def score_key (m : Nat × Nat) (t : Table) : Except PyErr (Nat × Nat × Nat) :=
  let hu := t.get_usage m.1
  let au := t.get_usage m.2
  let tot := t.get_total_usage
  let mu := if 0 < tot then (hu + au) / tot else 0
  match t.was_recently_used_by m.1 with
  | .error e => .error e
  | .ok r1 =>
    match t.was_recently_used_by m.2 with
    | .error e => .error e
    | .ok r2 => .ok (r1 + r2, mu, hu + au)

/-- The `for table, match_usage in valid_tables` minimum search of v2 lines
111-131: the accumulator starts as None and is replaced exactly when the
current tuple is strictly smaller, so among equal tuples the first table in
iteration order wins. -/
def find_best_go (m : Nat × Nat) :
    List Table → Option (Table × (Nat × Nat × Nat)) → Except PyErr (Option Table)
  | [], acc => .ok (acc.map (·.1))
  | t :: ts, acc =>
    match score_key m t with
    | .error e => .error e
    | .ok k =>
      match acc with
      | none => find_best_go m ts (some (t, k))
      | some (t0, k0) =>
        if key_lt k k0 then find_best_go m ts (some (t, k))
        else find_best_go m ts (some (t0, k0))

/-- Week.find_best_table (v2 lines 94-133): None when no tables are
available, otherwise the strict minimum over the available tables in
iteration order.  The `if not valid_tables: raise` of line 108 is
unreachable because valid_tables is built from the nonempty available
set. -/
def find_best_table (m : Nat × Nat) (available : List Table) :
    Except PyErr (Option Table) :=
  if available.isEmpty then .ok none else find_best_go m available none

/-- The bye test of v2 line 84 (string comparison against the optional bye
team id, None never matching). -/
def is_bye (bye : Option Nat) (m : Nat × Nat) : Bool :=
  match bye with
  | some b => b == m.1 || b == m.2
  | none => false

/-- The `for match in self.matches` loop of Week.assign_tables (v2 lines
83-92): bye matches are skipped; otherwise the best table is assigned
(Match.assign_table calls add_team for both teams on the table object the
match then references) and removed from the available set, and a None
result raises ValueError.  The available list is the iteration order of the
shuffled table set (lines 77-81); an assigned table is removed before later
matches are scored, so the per-week model needs no further aliasing: a
mutated table is never read again within the week. -/
def assign_go (bye : Option Nat) :
    List (Nat × Nat) → List Table →
    Except PyErr (List ((Nat × Nat) × Option Table) × List Table)
  | [], avail => .ok ([], avail)
  | m :: ms, avail =>
    if is_bye bye m then
      match assign_go bye ms avail with
      | .error e => .error e
      | .ok (outs, a2) => .ok ((m, none) :: outs, a2)
    else
      match find_best_table m avail with
      | .error e => .error e
      | .ok none => .error .valueError
      | .ok (some t) =>
        match assign_go bye ms (avail.erase t) with
        | .error e => .error e
        | .ok (outs, a2) =>
          .ok ((m, some ((t.add_team m.1).add_team m.2)) :: outs, a2)

/-- Week.assign_tables (v2 lines 75-92) for one week: `order` is the
iteration order of the available-table set after the unseeded
random.shuffle of line 78 (set iteration order in CPython depends on the
object hashes, which the program does not control; it is therefore an input
of the model).  Returns the matches with their assigned tables and the
remaining available tables. -/
def assign_tables (bye : Option Nat) (order : List Table)
    (ms : List (Nat × Nat)) :
    Except PyErr (List ((Nat × Nat) × Option Table) × List Table) :=
  assign_go bye ms order

/-- Projection used to compare two runs: the table id assigned to the first
match of the week, when the run succeeded and assigned one. -/
def first_assigned
    (r : Except PyErr (List ((Nat × Nat) × Option Table) × List Table)) :
    Option Nat :=
  match r with
  | .ok ((_, some t) :: _, _) => some t.table_id
  | _ => none

end V2

namespace V3

/-- Table (tableAssignments_v3.py lines 28-34). -/
structure Table where
  table_id : Nat
  table_value : String
deriving DecidableEq, Repr

/-- Team (v3 lines 19-26): tables_assigned is annotated Optional and
initialized to None by the constructor; no code in the module ever sets it
to a list.  Teams are modeled by value; in every trace proved below no
successful team mutation occurs, so the sharing of Team objects between
matches is unobservable. -/
structure Team where
  team_id : Nat
  team_value : String
  tables_assigned : Option (List Table)
deriving DecidableEq, Repr

/-- Match (v3 lines 36-73): home and away teams, the assigned table and the
candidate_tables field, which the constructor also initializes to None. -/
structure Match where
  home_team : Team
  away_team : Team
  table_assigned : Option Table
  candidate_tables : Option (List Table)
deriving DecidableEq, Repr

/-- Match.assign_table (v3 lines 46-50): sets table_assigned, then appends
to home_team.tables_assigned and away_team.tables_assigned.  Appending to a
None list raises AttributeError; the assignment to table_assigned has
already happened, so the partially mutated match is returned together with
the error. -/
def Match.assign_table (m : Match) (t : Table) : Match × Option PyErr :=
  let m1 := { m with table_assigned := some t }
  match m1.home_team.tables_assigned with
  | none => (m1, some .attributeError)
  | some hl =>
    let m2 := { m1 with
                home_team := { m1.home_team with tables_assigned := some (hl ++ [t]) } }
    match m2.away_team.tables_assigned with
    | none => (m2, some .attributeError)
    | some al =>
      ({ m2 with
         away_team := { m2.away_team with tables_assigned := some (al ++ [t]) } },
       none)

/-- Match.remove_table (v3 lines 56-60): clears table_assigned and pops the
most recent entry from both teams' tables_assigned histories.  pop on a
None history raises AttributeError and on an empty list IndexError. -/
def Match.remove_table (m : Match) : Match × Option PyErr :=
  let m1 := { m with table_assigned := none }
  match m1.home_team.tables_assigned with
  | none => (m1, some .attributeError)
  | some [] => (m1, some .indexError)
  | some hl =>
    let m2 := { m1 with
                home_team := { m1.home_team with tables_assigned := some hl.dropLast } }
    match m2.away_team.tables_assigned with
    | none => (m2, some .attributeError)
    | some [] => (m2, some .indexError)
    | some al =>
      ({ m2 with
         away_team := { m2.away_team with tables_assigned := some al.dropLast } },
       none)

/-- Match.assign_candidate_table (v3 lines 52-54): appends to the
candidate_tables list, raising AttributeError when it is None. -/
def Match.assign_candidate_table (m : Match) (t : Table) : Match × Option PyErr :=
  match m.candidate_tables with
  | none => (m, some .attributeError)
  | some l => ({ m with candidate_tables := some (l ++ [t]) }, none)

/-- The generator condition of populate_match_candidate_tables (v3 lines
138-139) for one team: the team participates in the check only when its
tables_assigned is truthy (neither None nor empty), and then the proposed
table is compared against the most recent entry. -/
def recent_repeat (tm : Team) (t : Table) : Bool :=
  match tm.tables_assigned with
  | some l => decide (l.getLast? = some t)
  | none => false

/-- The full any(...) test of v3 lines 138-139 over home and away team. -/
def repeat_check (m : Match) (t : Table) : Bool :=
  recent_repeat m.home_team t || recent_repeat m.away_team t

/-- populate_match_candidate_tables (v3 lines 131-144): walks the
match/table pairs in order; a pair whose proposed table repeats either
team's most recent table makes the whole candidate return False
immediately, before anything is recorded; otherwise the pair is recorded
via assign_candidate_table (whose mutation only affects candidate_tables,
which nothing later reads, so the updated match is not threaded). -/
def populate_match_candidate_tables :
    List (Match × Table) → Except PyErr Bool
  | [] => .ok true
  | (m, t) :: rest =>
    if repeat_check m t then .ok false
    else
      match m.assign_candidate_table t with
      | (_, some e) => .error e
      | (_, none) => populate_match_candidate_tables rest

/-- itertools.permutations(pool, k): all length-k sequences of distinct
positions of the pool, in the order itertools emits them (positions of the
first element ascending, then recursively). -/
def perms_take {α : Type} : Nat → List α → List (List α)
  | 0, _ => [[]]
  | k + 1, l =>
    (List.range l.length).flatMap (fun i =>
      match l.get? i with
      | some x => (perms_take k (l.eraseIdx i)).map (x :: ·)
      | none => [])

/-- get_permutations (v3 lines 146-155): tries each permutation in turn,
zipped against the matches; a True from the populate step accepts
immediately. -/
def get_permutations (ms : List Match) :
    List (List Table) → Except PyErr Bool
  | [] => .ok false
  | p :: ps =>
    match populate_match_candidate_tables (ms.zip p) with
    | .error e => .error e
    | .ok true => .ok true
    | .ok false => get_permutations ms ps

/-- reset_assignments (v3 lines 125-129): remove_table on every match that
has a table assigned. -/
def reset_assignments : List Match → Except PyErr (List Match)
  | [] => .ok []
  | m :: ms =>
    if m.table_assigned.isSome then
      match m.remove_table with
      | (_, some e) => .error e
      | (m2, none) =>
        match reset_assignments ms with
        | .error e => .error e
        | .ok rest => .ok (m2 :: rest)
    else
      match reset_assignments ms with
      | .error e => .error e
      | .ok rest => .ok (m :: rest)

/-- assign_tables_to_matches (v3 lines 116-165).  Line 123 computes
max_usage_per_table = math.ceil(weeks_total / num_tables); with an empty
pool the division raises ZeroDivisionError, and the value is never used
afterwards.  Then every permutation of the pool of the length of the match
list is tried; on failure the assignments are reset and False is returned
to the caller. -/
def assign_tables_to_matches (weeks_total : Nat) (ms : List Match)
    (tables : List Table) : Except PyErr (Bool × List Match) :=
  if tables.length = 0 then .error .zeroDivisionError
  else
    let _max_usage_per_table := (weeks_total + tables.length - 1) / tables.length
    match get_permutations ms (perms_take ms.length tables) with
    | .error e => .error e
    | .ok true => .ok (true, ms)
    | .ok false =>
      match reset_assignments ms with
      | .error e => .error e
      | .ok ms2 => .ok (false, ms2)

/-- Week (v3 lines 75-95): the id is kept as the string read from the CSV
(line 103 compares str(self.week_id) == "1"). -/
structure Week where
  week_id : String
  weeks_total : Nat
  date : String
  match_list : List Match
  bye_team_id : Option Nat
deriving DecidableEq, Repr

/-- The first-week loop of v3 lines 107-110: pop takes tables from the end
of the shuffled available list (an empty list raises IndexError), and each
match is assigned via Match.assign_table.  An exception leaves the already
processed matches (including the partially mutated current one) in the
week. -/
def week1_go : List Match → List Match → List Table → List Match × Option PyErr
  | acc, [], _ => (acc, none)
  | acc, m :: ms, avail =>
    match avail.getLast? with
    | none => (acc ++ m :: ms, some .indexError)
    | some t =>
      match m.assign_table t with
      | (m2, some e) => (acc ++ m2 :: ms, some e)
      | (m2, none) => week1_go (acc ++ [m2]) ms avail.dropLast

/-- Week.assign_tables (v3 lines 97-114).  shT and shM model the two
unseeded random.shuffle calls of lines 105-106 (applied only in the
first-week branch).  For other weeks, assign_tables_to_matches runs; a
False result only prints a warning (line 114) and the method returns
normally, reporting no failure to the caller. -/
def assign_tables (shT : List Table → List Table)
    (shM : List Match → List Match) (w : Week) (tables : List Table) :
    Week × Option PyErr :=
  if w.week_id = "1" then
    let (ms2, e) := week1_go [] (shM w.match_list) (shT tables)
    ({ w with match_list := ms2 }, e)
  else
    match assign_tables_to_matches w.weeks_total w.match_list tables with
    | .error e => (w, some e)
    | .ok (_success, ms2) => ({ w with match_list := ms2 }, none)

/-- Week.set_weeks_total (v3 lines 93-95). -/
def set_weeks_total (w : Week) (n : Nat) : Week :=
  { w with weeks_total := n }

/-- The week loop of assign_all_tables (v3 lines 251-256), with the total
week count fixed: each week gets weeks_total set, then its tables assigned.
A Python exception propagates, leaving the remaining weeks untouched. -/
def assign_all_go (shT : List Table → List Table)
    (shM : List Match → List Match) (tables : List Table) (total : Nat) :
    List Week → List Week × Option PyErr
  | [] => ([], none)
  | w :: ws =>
    let w1 := set_weeks_total w total
    match assign_tables shT shM w1 tables with
    | (w2, some e) => (w2 :: ws, some e)
    | (w2, none) =>
      match assign_all_go shT shM tables total ws with
      | (ws2, e) => (w2 :: ws2, e)

/-- TableAssignmentManager.assign_all_tables (v3 lines 251-259) restricted
to the assignment core: processes every week of the schedule in order. -/
def assign_all_tables (shT : List Table → List Table)
    (shM : List Match → List Match) (weeks : List Week)
    (tables : List Table) : List Week × Option PyErr :=
  assign_all_go shT shM tables weeks.length weeks

end V3

/-- Modelled from the spec: the ideal usage per resource,
ceil(totalPeriods / totalResources) (spec sections 3 and Glossary), stated
as the Nat ceiling division.  This is the spec-side value that claim C6
compares with the value the v1 code computes. -/
def spec_ideal_usage (totalPeriods totalResources : Nat) : Nat :=
  (totalPeriods + totalResources - 1) / totalResources

/-- Concrete table used by the closed v3 theorems below. -/
def exV3Table : V3.Table := ⟨1, "T1"⟩

/-- Concrete table A of the two-table v3 pool. -/
def exV3TableA : V3.Table := ⟨1, "A"⟩

/-- Concrete table B of the two-table v3 pool. -/
def exV3TableB : V3.Table := ⟨2, "B"⟩

/-- Concrete fresh team, as built by initialize_from_config
(tables_assigned is None). -/
def exV3Team (i : Nat) : V3.Team := ⟨i, "t", none⟩

/-- Concrete fresh match between two fresh teams, as built by
read_schedule. -/
def exV3Match (a b : Nat) : V3.Match := ⟨exV3Team a, exV3Team b, none, none⟩

/-- A non-first week with two matches: infeasible against a one-table
pool. -/
def exWeek2 : V3.Week := ⟨"2", 0, "d2", [exV3Match 1 2, exV3Match 3 4], none⟩

/-- A second non-first week with two matches, following exWeek2. -/
def exWeek3 : V3.Week := ⟨"3", 0, "d3", [exV3Match 1 2, exV3Match 3 4], none⟩

/-- A first week (week_id "1") with two matches. -/
def exWeek1 : V3.Week := ⟨"1", 0, "d1", [exV3Match 1 2, exV3Match 3 4], none⟩

/-- A match whose teams both carry one history entry and which has a table
assigned — the state remove_table operates on. -/
def exV3HistMatch : V3.Match :=
  ⟨⟨1, "x", some [exV3TableA]⟩, ⟨2, "y", some [exV3TableA]⟩, some exV3TableA, none⟩

/-- A match whose home team most recently played on exV3TableA, used to
exercise the repeat check. -/
def exV3RepeatMatch : V3.Match :=
  ⟨⟨1, "x", some [exV3TableA]⟩, ⟨2, "y", none⟩, none, none⟩

/-- Concrete fresh v2 table with id 1. -/
def exV2TableA : V2.Table := ⟨1, [], []⟩

/-- Concrete fresh v2 table with id 2. -/
def exV2TableB : V2.Table := ⟨2, [], []⟩

/-- The week output of the concrete successful v2 run of the exclusivity
witness: both matches assigned, to tables 1 and 2 respectively. -/
def exV2Out : List ((Nat × Nat) × Option V2.Table) :=
  [((1, 2), some ⟨1, [(1, 1), (2, 1)], [1, 2]⟩),
   ((3, 4), some ⟨2, [(3, 1), (4, 1)], [3, 4]⟩)]

/-- Concrete fresh v1 table. -/
def exV1Table : V1.Table := ⟨1, [], []⟩

/-- A schedule of four valid rows (four loaded periods). -/
def exIdealRows : List (List String) :=
  [["1", "a", "1-2"], ["2", "b", "1-2"], ["3", "c", "1-2"], ["4", "d", "1-2"]]

/-- A configuration with a single table and no bye team. -/
def exCfg : V1.Config := ⟨[101], ["t1"], [1, 2, 3, 4], ["A", "B", "C", "D"], none⟩

/-- A schedule whose single week has two matches among four teams: it needs
two tables per week, more than the one-table pool of exCfg provides. -/
def exCfgRows : List (List String) := [["1", "d", "1-2", "3-4"]]

/-
  Theorems.  Helper lemmas come first; each claim of the specification
  review is settled by exactly one theorem, marked with its claim id.
-/

theorem takeWhile_digits_append (g r : List Char)
    (hg : ∀ c ∈ g, c.isDigit = true) :
    (g ++ '-' :: r).takeWhile Char.isDigit = g := by
  induction g with
  | nil => simp [List.takeWhile]
  | cons c g ih =>
    have hc : c.isDigit = true := hg c (by simp)
    simp only [List.cons_append, List.takeWhile_cons, hc, if_true]
    rw [ih (fun x hx => hg x (by simp [hx]))]

theorem dropWhile_digits_append (g r : List Char)
    (hg : ∀ c ∈ g, c.isDigit = true) :
    (g ++ '-' :: r).dropWhile Char.isDigit = '-' :: r := by
  induction g with
  | nil => simp [List.dropWhile]
  | cons c g ih =>
    have hc : c.isDigit = true := hg c (by simp)
    simp only [List.cons_append, List.dropWhile_cons, hc, if_true]
    exact ih (fun x hx => hg x (by simp [hx]))

theorem parse_group_append (g r : List Char) (hne : g ≠ [])
    (hg : ∀ c ∈ g, c.isDigit = true) :
    Plain.parse_group (g ++ '-' :: r) = some (g, r) := by
  unfold Plain.parse_group
  rw [takeWhile_digits_append g r hg, dropWhile_digits_append g r hg]
  simp [hne]

theorem expect_lit_append (lit s : List Char) :
    Plain.expect_lit lit (lit ++ s) = some s := by
  induction lit with
  | nil => rfl
  | cons c cs ih => simp [Plain.expect_lit, ih]

/-- C10: filename validation is prefix-only — for every string that begins
with a prefix matching digits-digits-digits-digits-digits-Schedule.csv,
parse_filename succeeds and returns the five captured digit groups, no
matter what characters follow "Schedule.csv", because re.match anchors only
at the start of the string. -/
theorem parse_filename_accepts_any_suffix
    (g1 g2 g3 g4 g5 rest : List Char)
    (h1 : g1 ≠ [] ∧ ∀ c ∈ g1, c.isDigit = true)
    (h2 : g2 ≠ [] ∧ ∀ c ∈ g2, c.isDigit = true)
    (h3 : g3 ≠ [] ∧ ∀ c ∈ g3, c.isDigit = true)
    (h4 : g4 ≠ [] ∧ ∀ c ∈ g4, c.isDigit = true)
    (h5 : g5 ≠ [] ∧ ∀ c ∈ g5, c.isDigit = true) :
    Plain.parse_filename
      (g1 ++ '-' :: (g2 ++ '-' :: (g3 ++ '-' :: (g4 ++ '-' ::
        (g5 ++ '-' :: (Plain.schedLit ++ rest)))))) =
      some (g1, g2, g3, g4, g5) := by
  simp [Plain.parse_filename,
    parse_group_append _ _ h1.1 h1.2,
    parse_group_append _ _ h2.1 h2.2,
    parse_group_append _ _ h3.1 h3.2,
    parse_group_append _ _ h4.1 h4.2,
    parse_group_append _ _ h5.1 h5.2,
    expect_lit_append]

theorem parse_filename_accepts_any_suffix_witness :
    Plain.parse_filename
      ['7', '8', '7', '-', '2', '0', '2', '5', '-', '0', '1', '-', '7', '0',
       '5', '-', '0', '2', '-', 'S', 'c', 'h', 'e', 'd', 'u', 'l', 'e', '.',
       'c', 's', 'v', 'X'] =
      some (['7', '8', '7'], ['2', '0', '2', '5'], ['0', '1'],
            ['7', '0', '5'], ['0', '2']) :=
  parse_filename_accepts_any_suffix ['7', '8', '7'] ['2', '0', '2', '5']
    ['0', '1'] ['7', '0', '5'] ['0', '2'] ['X']
    ⟨by decide, by decide⟩ ⟨by decide, by decide⟩ ⟨by decide, by decide⟩
    ⟨by decide, by decide⟩ ⟨by decide, by decide⟩

/-- C2 counterexample: the no-immediate-repeat rule is not a hard constraint
across adjacent periods.  On the two-week schedule whose only match each
week is 1-2, the plain assign_tables reassigns the match within each week
(the combo loop keeps running after a success), appending every tried table
to the history; the final table of week 1 and the final table of week 2 are
both "7-8", so participants 1 and 2 receive the same table in two
chronologically adjacent periods with no infeasibility reported. -/
theorem plain_adjacent_weeks_repeat_table :
    Plain.assign_tables [("1", "d1", ["1-2"]), ("2", "d2", ["1-2"])] =
      .ok [("1", "d1", [("1-2", "7-8")]), ("2", "d2", [("1-2", "7-8")])] := by
  rfl

/-- C2 (amended): in the v3 candidate search, a candidate pair whose
proposed table equals either participant's most recent table is rejected
outright — populate_match_candidate_tables returns False immediately,
before recording anything; the plain variant, however, checks a candidate
only against the most recent history entry, which same-week reassignment
churn overwrites, so chronologically adjacent periods can assign a
participant the same table (see the counterexample). -/
theorem v3_repeat_candidate_rejected_unscored (m : V3.Match) (t : V3.Table)
    (rest : List (V3.Match × V3.Table))
    (h : V3.repeat_check m t = true) :
    V3.populate_match_candidate_tables ((m, t) :: rest) = .ok false := by
  simp [V3.populate_match_candidate_tables, h]

theorem v3_repeat_candidate_rejected_unscored_witness :
    V3.repeat_check exV3RepeatMatch exV3TableA = true ∧
    V3.populate_match_candidate_tables [(exV3RepeatMatch, exV3TableA)] =
      .ok false :=
  ⟨rfl, v3_repeat_candidate_rejected_unscored exV3RepeatMatch exV3TableA [] rfl⟩

/-- C3 counterexample: the engine does not stop at an infeasible period.
Week "2" has two matches against a one-table pool, so no permutation covers
it; v3 assign_all_tables nevertheless reports no failure (the error
component is none) and goes on to process week "3" (whose weeks_total is
set), leaving every match of both weeks unassigned. -/
theorem v3_continues_past_infeasible_period :
    V3.assign_all_tables id id [exWeek2, exWeek3] [exV3Table] =
      ([V3.set_weeks_total exWeek2 2, V3.set_weeks_total exWeek3 2], none) := by
  rfl

theorem flatMap_eq_nil_of_forall {α β : Type} (L : List α) (f : α → List β)
    (h : ∀ x ∈ L, f x = []) : L.flatMap f = [] := by
  induction L with
  | nil => rfl
  | cons a L ih =>
    simp only [List.flatMap_cons, h a (by simp), List.nil_append]
    exact ih (fun x hx => h x (by simp [hx]))

theorem v3_perms_take_nil {α : Type} (k : Nat) (l : List α)
    (h : l.length < k) : V3.perms_take k l = [] := by
  induction k generalizing l with
  | zero => omega
  | succ k ih =>
    simp only [V3.perms_take]
    apply flatMap_eq_nil_of_forall
    intro i hi
    have hil : i < l.length := List.mem_range.mp hi
    cases hget : l.get? i with
    | none => simp [hget]
    | some x =>
      have hlen : (l.eraseIdx i).length = l.length - 1 := by
        rw [List.length_eraseIdx]
        simp [hil]
      have : V3.perms_take k (l.eraseIdx i) = [] := ih _ (by omega)
      simp [hget, this]

theorem v3_reset_noop (ms : List V3.Match)
    (h : ∀ m ∈ ms, m.table_assigned = none) :
    V3.reset_assignments ms = .ok ms := by
  induction ms with
  | nil => rfl
  | cons m ms ih =>
    have h0 : m.table_assigned = none := h m (by simp)
    simp [V3.reset_assignments, h0, ih (fun x hx => h x (by simp [hx]))]

theorem v3_infeasible_week_clean (shT : List V3.Table → List V3.Table)
    (shM : List V3.Match → List V3.Match) (w : V3.Week)
    (tables : List V3.Table)
    (h1 : w.week_id ≠ "1") (h2 : 0 < tables.length)
    (h3 : tables.length < w.match_list.length)
    (h4 : ∀ m ∈ w.match_list, m.table_assigned = none) :
    V3.assign_tables shT shM w tables = (w, none) := by
  unfold V3.assign_tables
  rw [if_neg h1]
  unfold V3.assign_tables_to_matches
  rw [if_neg (by omega)]
  have hperm : V3.perms_take w.match_list.length tables = [] :=
    v3_perms_take_nil _ _ h3
  simp [hperm, V3.get_permutations, v3_reset_noop _ h4]

theorem v3_assign_all_go_infeasible (shT : List V3.Table → List V3.Table)
    (shM : List V3.Match → List V3.Match) (tables : List V3.Table)
    (total : Nat) (weeks : List V3.Week) (h2 : 0 < tables.length)
    (hw : ∀ w ∈ weeks, w.week_id ≠ "1" ∧
      tables.length < w.match_list.length ∧
      ∀ m ∈ w.match_list, m.table_assigned = none) :
    V3.assign_all_go shT shM tables total weeks =
      (weeks.map (fun w => V3.set_weeks_total w total), none) := by
  induction weeks with
  | nil => rfl
  | cons w ws ih =>
    have hwh := hw w (by simp)
    have hweek :
        V3.assign_tables shT shM (V3.set_weeks_total w total) tables =
          (V3.set_weeks_total w total, none) :=
      v3_infeasible_week_clean shT shM _ tables hwh.1 h2 hwh.2.1 hwh.2.2
    simp [V3.assign_all_go, hweek, ih (fun x hx => hw x (by simp [hx]))]

/-- C3 (amended): when a non-first period has no candidate assignment under
the hard constraints (here: the pool is smaller than the period's match
count, so no permutation exists), the v3 engine does not stop — it logs a
warning, leaves every match of the period unassigned, reports no failure to
the caller, and processes all later periods the same way.  (The v1 variant
instead raises a ValueError naming the match and week, which aborts the run
via exception; neither variant returns a partial result together with an
explicit failure value.) -/
theorem v3_infeasible_periods_processed_without_failure
    (shT : List V3.Table → List V3.Table)
    (shM : List V3.Match → List V3.Match) (weeks : List V3.Week)
    (tables : List V3.Table) (h2 : 0 < tables.length)
    (hw : ∀ w ∈ weeks, w.week_id ≠ "1" ∧
      tables.length < w.match_list.length ∧
      ∀ m ∈ w.match_list, m.table_assigned = none) :
    V3.assign_all_tables shT shM weeks tables =
      (weeks.map (fun w => V3.set_weeks_total w weeks.length), none) :=
  v3_assign_all_go_infeasible shT shM tables weeks.length weeks h2 hw

theorem v3_infeasible_periods_processed_without_failure_witness :
    V3.assign_all_tables id id [exWeek2] [exV3Table] =
      ([V3.set_weeks_total exWeek2 1], none) :=
  v3_infeasible_periods_processed_without_failure id id [exWeek2] [exV3Table]
    (by decide) (by decide)

/-- C4 counterexample: the assignment is not deterministic across runs.
Two runs of the v2 week assignment over the identical timeline (matches
(1,2) and (3,4)) and the identical fresh ledger differ only in the outcome
of the unseeded random shuffle and the set iteration order it feeds (the
order parameter); they assign different tables to the first match — the
tie among the all-zero scores is broken by iteration order, not by a
canonical resource ordering. -/
theorem v2_output_depends_on_shuffle_order :
    V2.first_assigned
        (V2.assign_tables none [exV2TableA, exV2TableB] [(1, 2), (3, 4)]) =
      some 1 ∧
    V2.first_assigned
        (V2.assign_tables none [exV2TableB, exV2TableA] [(1, 2), (3, 4)]) =
      some 2 :=
  ⟨rfl, rfl⟩

theorem v2_score_key_fresh (m : Nat × Nat) (t : V2.Table)
    (hu : t.team_usage = []) (hl : t.last_used_by = []) :
    V2.score_key m t = .ok (0, 0, 0) := by
  simp [V2.score_key, V2.Table.get_usage, V2.Table.get_total_usage,
    V2.Table.was_recently_used_by, hu, hl, alookup]

theorem v2_find_best_go_fresh (m : Nat × Nat) (t0 : V2.Table)
    (ts : List V2.Table)
    (h : ∀ u ∈ ts, u.team_usage = [] ∧ u.last_used_by = []) :
    V2.find_best_go m ts (some (t0, (0, 0, 0))) = .ok (some t0) := by
  induction ts with
  | nil => rfl
  | cons u us ih =>
    have hu := h u (by simp)
    have hk := v2_score_key_fresh m u hu.1 hu.2
    have hlt : V2.key_lt (0, 0, 0) (0, 0, 0) = false := rfl
    simp only [V2.find_best_go, hk, hlt, Bool.false_eq_true, if_false]
    exact ih (fun x hx => h x (by simp [hx]))

/-- C4 (amended): the produced mapping is a deterministic function of the
timeline, the ledger start state and the shuffle outcomes; for a fixed
shuffle order two runs coincide, but identical runs need not, because the
tie-break is the shuffled iteration order rather than a canonical resource
ordering.  In particular, over a completely fresh ledger (the first period)
every available table scores (0, 0, 0) and v2 find_best_table returns the
first table of the iteration order. -/
theorem v2_fresh_ledger_first_table_in_order_wins (m : Nat × Nat)
    (t : V2.Table) (ts : List V2.Table)
    (h : ∀ u ∈ t :: ts, u.team_usage = [] ∧ u.last_used_by = []) :
    V2.find_best_table m (t :: ts) = .ok (some t) := by
  have ht := h t (by simp)
  have hk := v2_score_key_fresh m t ht.1 ht.2
  have hne : (t :: ts).isEmpty = false := rfl
  simp only [V2.find_best_table, hne, Bool.false_eq_true, if_false,
    V2.find_best_go, hk]
  exact v2_find_best_go_fresh m t ts (fun u hu => h u (by simp [hu]))

theorem v2_fresh_ledger_first_table_in_order_wins_witness :
    V2.find_best_table (1, 2) [exV2TableA, exV2TableB] =
      .ok (some exV2TableA) :=
  v2_fresh_ledger_first_table_in_order_wins (1, 2) exV2TableA [exV2TableB]
    (by decide)

/-- C5 counterexample: a failed period can leave a partial commit.  In the
v3 first-week path over two matches and two tables, the first match is
assigned table B (pop takes the end of the shuffled list) and the run then
fails with AttributeError while recording the team history; the returned
week keeps table B on its first match while the second match is unassigned,
so the period failed yet one of its events holds an assignment. -/
theorem v3_week1_failure_partial_commit :
    V3.assign_tables id id exWeek1 [exV3TableA, exV3TableB] =
      ({ exWeek1 with
         match_list :=
           [{ exV3Match 1 2 with table_assigned := some exV3TableB },
            exV3Match 3 4] },
       some .attributeError) := by
  rfl

/-- C5 (amended): per-period atomicity holds on the clean infeasibility
path: when a non-first period has no feasible candidate (pool smaller than
the match count), the period is returned unchanged — no event of the period
is assigned and no usage or history entry is written; the v3 first-week
path, however, commits match by match, so a failure inside it leaves the
earlier matches of the period assigned (see the counterexample). -/
theorem v3_clean_infeasible_period_commits_nothing
    (shT : List V3.Table → List V3.Table)
    (shM : List V3.Match → List V3.Match) (w : V3.Week)
    (tables : List V3.Table)
    (h1 : w.week_id ≠ "1") (h2 : 0 < tables.length)
    (h3 : tables.length < w.match_list.length)
    (h4 : ∀ m ∈ w.match_list, m.table_assigned = none) :
    V3.assign_tables shT shM w tables = (w, none) :=
  v3_infeasible_week_clean shT shM w tables h1 h2 h3 h4

theorem v3_clean_infeasible_period_commits_nothing_witness :
    V3.assign_tables id id exWeek2 [exV3Table] = (exWeek2, none) :=
  v3_clean_infeasible_period_commits_nothing id id exWeek2 [exV3Table]
    (by decide) (by decide) (by decide) (by decide)

/-- C6 counterexample: the value the v1 scorer computes is not
ceil(totalPeriods / totalResources).  With four loaded periods and three
resources, read_schedule sets total_weeks to 5 (one more than the period
count, line 291) and line 109 floor-divides: 5 // 3 = 1, while the spec
value ceil(4 / 3) is 2. -/
theorem v1_ideal_usage_differs_from_ceil :
    V1.ideal_usage_per_table (V1.total_weeks exIdealRows) 3 = 1 ∧
    spec_ideal_usage (exIdealRows.filter V1.valid_row).length 3 = 2 ∧
    V1.ideal_usage_per_table (V1.total_weeks exIdealRows) 3 ≠
      spec_ideal_usage (exIdealRows.filter V1.valid_row).length 3 := by
  exact ⟨rfl, rfl, by decide⟩

/-- C6 (amended): the ideal-usage-per-resource value of v1 equals
floor((totalPeriods + 1) / totalResources) — total_weeks is one more than
the number of loaded periods and the division is Python floor division.
Stated as the floor characterization: the value q satisfies
q * T ≤ P + 1 < (q + 1) * T, where P is the loaded period count and T the
pool size.  (v3 computes ceil(weeks_total / num_tables) on its line 123 but
never uses the value.) -/
theorem v1_ideal_usage_is_floor_of_periods_succ (rows : List (List String))
    (T : Nat) (hT : 0 < T) :
    V1.ideal_usage_per_table (V1.total_weeks rows) T * T ≤
      (rows.filter V1.valid_row).length + 1 ∧
    (rows.filter V1.valid_row).length + 1 <
      (V1.ideal_usage_per_table (V1.total_weeks rows) T + 1) * T := by
  constructor
  · exact Nat.div_mul_le_self _ _
  · exact (Nat.div_lt_iff_lt_mul hT).mp (Nat.lt_succ_self _)

theorem v1_ideal_usage_is_floor_of_periods_succ_witness :
    0 < 3 ∧
    (V1.ideal_usage_per_table (V1.total_weeks exIdealRows) 3 * 3 ≤
        (exIdealRows.filter V1.valid_row).length + 1 ∧
      (exIdealRows.filter V1.valid_row).length + 1 <
        (V1.ideal_usage_per_table (V1.total_weeks exIdealRows) 3 + 1) * 3) :=
  ⟨by decide, v1_ideal_usage_is_floor_of_periods_succ exIdealRows 3 (by decide)⟩

/-- C7: an undersized resource pool is not detected before periods are
processed.  The configuration exCfg has one table while the schedule
exCfgRows needs two per week (four teams), yet manager_init completes
without error: __init__ runs initialize_tables before read_schedule, so the
pool check compares len(table_ids) + offset against num_teams // 2 while
num_teams is still 0 and can never fire.  The second conjunct shows the
same pool fails the intended comparison once num_teams is known to be 4.
(The odd-participant check does run inside read_schedule, before any
assignment.) -/
theorem v1_undersized_pool_not_detected_at_init :
    V1.manager_init exCfg exCfgRows = .ok ⟨none, [("t1", 101)], 4⟩ ∧
    exCfg.table_ids.length + 0 < 4 / 2 := by
  exact ⟨rfl, by decide⟩

/-- C8 counterexample: an operation of the run removes an appended history
entry.  v3 Match.remove_table, applied to a match whose teams each carry
one history entry, pops that entry from both participants' resource-use
histories (and reports no error). -/
theorem v3_remove_table_removes_history_entry :
    V3.Match.remove_table exV3HistMatch =
      ({ exV3HistMatch with
         table_assigned := none,
         home_team := { team_id := 1, team_value := "x", tables_assigned := some [] },
         away_team := { team_id := 2, team_value := "y", tables_assigned := some [] } },
       none) ∧
    exV3HistMatch.home_team.tables_assigned = some [exV3TableA] ∧
    exV3HistMatch.away_team.tables_assigned = some [exV3TableA] :=
  ⟨rfl, rfl, rfl⟩

theorem alookup_bump_le {α : Type} [DecidableEq α] (l : List (α × Nat))
    (a x : α) :
    (alookup l x).getD 0 ≤ (alookup (bump l a) x).getD 0 := by
  induction l with
  | nil =>
    by_cases hax : a = x <;> simp [bump, alookup, hax]
  | cons p rest ih =>
    obtain ⟨k, v⟩ := p
    by_cases hka : k = a
    · subst hka
      by_cases hkx : k = x
      · subst hkx
        simp [bump, alookup]
      · simp [bump, alookup, hkx]
    · by_cases hkx : k = x
      · subst hkx
        simp [bump, alookup, hka]
      · simp only [bump, alookup, if_neg hka, if_neg hkx]
        exact ih

/-- C8 (amended): per-participant usage counts never decrease and v1 never
removes history — Table.add_team only increments a usage count and appends
to last_used_by, and no v1 operation decrements or pops either field; the
v3 Match.remove_table, however, removes the most recent entry from both
participants' histories when a failed week is reset (see the
counterexample). -/
theorem v1_usage_only_grows (t : V1.Table) (team x : Nat) :
    V1.Table.get_usage t x ≤ V1.Table.get_usage (t.add_team team) x ∧
    (t.add_team team).last_used_by = t.last_used_by ++ [team] :=
  ⟨alookup_bump_le t.team_usage team x, rfl⟩

theorem v1_assign_go_never_ok (bye : Option Nat) (avail : List V1.Table) :
    ∀ ms : List V1.Match, (∃ m ∈ ms, V1.is_bye bye m = false) →
      ∀ out, V1.assign_tables_go bye avail ms ≠ .ok out := by
  intro ms
  induction ms with
  | nil => rintro ⟨m, hm, _⟩ _ _; exact absurd hm (List.not_mem_nil m)
  | cons m ms ih =>
    rintro ⟨m0, hm0, hb0⟩ out hok
    by_cases hb : V1.is_bye bye m = true
    · have hm0ms : m0 ∈ ms := by
        rcases List.mem_cons.mp hm0 with h | h
        · subst h; rw [hb] at hb0; cases hb0
        · exact h
      rw [V1.assign_tables_go, if_pos hb] at hok
      cases hgo : V1.assign_tables_go bye avail ms with
      | error e => rw [hgo] at hok; cases hok
      | ok rest => exact ih ⟨m0, hm0ms, hb0⟩ rest hgo
    · rw [V1.assign_tables_go, if_neg hb] at hok
      cases avail with
      | nil => simp [V1.find_best_table, List.isEmpty] at hok
      | cons t ts => simp [V1.find_best_table, List.isEmpty] at hok

/-- C9: in the v1 variant, Week.find_best_table raises AttributeError
whenever the available-table set is nonempty (it reads self.tables, which
Week.__init__ never defines), so Week.assign_tables cannot successfully
process any week containing a non-bye match: with tables available the
AttributeError propagates, and with none available the None result raises
ValueError. -/
theorem v1_find_best_table_always_raises :
    (∀ available : List V1.Table, available ≠ [] →
      V1.find_best_table available = .error .attributeError) ∧
    (∀ (bye : Option Nat) (tables : List V1.Table) (ms : List V1.Match),
      (∃ m ∈ ms, V1.is_bye bye m = false) →
      ∀ out, V1.assign_tables bye tables ms ≠ .ok out) := by
  constructor
  · intro avail h
    cases avail with
    | nil => exact absurd rfl h
    | cons t ts => rfl
  · intro bye tables ms hex out
    exact v1_assign_go_never_ok bye tables ms hex out

theorem v1_find_best_table_always_raises_witness :
    V1.find_best_table [exV1Table] = .error .attributeError ∧
    ∀ out, V1.assign_tables none [exV1Table] [⟨1, 2, none⟩] ≠ .ok out :=
  ⟨v1_find_best_table_always_raises.1 [exV1Table] (by simp),
   v1_find_best_table_always_raises.2 none [exV1Table] [⟨1, 2, none⟩]
     ⟨⟨1, 2, none⟩, by simp, rfl⟩⟩

theorem v2_find_best_go_mem (m : Nat × Nat) :
    ∀ (ts : List V2.Table) (acc : Option (V2.Table × (Nat × Nat × Nat)))
      (t : V2.Table),
      V2.find_best_go m ts acc = .ok (some t) →
      t ∈ ts ∨ ∃ k, acc = some (t, k) := by
  intro ts
  induction ts with
  | nil =>
    intro acc t h
    cases acc with
    | none => simp [V2.find_best_go] at h
    | some p =>
      obtain ⟨t0, k0⟩ := p
      simp [V2.find_best_go] at h
      exact Or.inr ⟨k0, by rw [h]⟩
  | cons u us ih =>
    intro acc t h
    rw [V2.find_best_go] at h
    cases hs : V2.score_key m u with
    | error e => rw [hs] at h; simp at h
    | ok k =>
      simp only [hs] at h
      cases acc with
      | none =>
        rcases ih (some (u, k)) t h with hmem | ⟨k2, hk2⟩
        · exact Or.inl (List.mem_cons_of_mem u hmem)
        · have hut : u = t := congrArg Prod.fst (Option.some.inj hk2)
          exact Or.inl (hut ▸ List.mem_cons_self u us)
      | some p =>
        obtain ⟨t0, k0⟩ := p
        have h2 : (if V2.key_lt k k0 = true then
              V2.find_best_go m us (some (u, k))
            else V2.find_best_go m us (some (t0, k0))) =
            Except.ok (some t) := h
        by_cases hlt : V2.key_lt k k0 = true
        · rw [if_pos hlt] at h2
          rcases ih (some (u, k)) t h2 with hmem | ⟨k2, hk2⟩
          · exact Or.inl (List.mem_cons_of_mem u hmem)
          · have hut : u = t := congrArg Prod.fst (Option.some.inj hk2)
            exact Or.inl (hut ▸ List.mem_cons_self u us)
        · rw [if_neg hlt] at h2
          rcases ih (some (t0, k0)) t h2 with hmem | ⟨k2, hk2⟩
          · exact Or.inl (List.mem_cons_of_mem u hmem)
          · have ht0 : t0 = t := congrArg Prod.fst (Option.some.inj hk2)
            exact Or.inr ⟨k0, by rw [ht0]⟩

theorem v2_find_best_mem (m : Nat × Nat) (avail : List V2.Table)
    (t : V2.Table) (h : V2.find_best_table m avail = .ok (some t)) :
    t ∈ avail := by
  unfold V2.find_best_table at h
  cases avail with
  | nil => simp [List.isEmpty] at h
  | cons u us =>
    simp only [List.isEmpty_cons, Bool.false_eq_true, if_false] at h
    rcases v2_find_best_go_mem m (u :: us) none t h with hmem | ⟨k, hk⟩
    · exact hmem
    · exact Option.noConfusion hk

theorem v2_table_id_not_mem_erase (avail : List V2.Table) (t : V2.Table)
    (hp : (avail.map V2.Table.table_id).Nodup) (ht : t ∈ avail) :
    t.table_id ∉ (avail.erase t).map V2.Table.table_id := by
  intro hmem
  obtain ⟨u, humem, huid⟩ := List.mem_map.mp hmem
  have hnd : avail.Nodup := hp.of_map
  have hu_av : u ∈ avail := List.mem_of_mem_erase humem
  have hne : u ≠ t := by
    intro he
    subst he
    exact hnd.not_mem_erase humem
  have hpw : avail.Pairwise (fun a b => a.table_id ≠ b.table_id) :=
    List.pairwise_map.mp hp
  exact hpw.forall (fun _ _ hab => Ne.symm hab) hu_av ht hne huid

theorem v2_erase_map_subset (avail : List V2.Table) (t : V2.Table) :
    (avail.erase t).map V2.Table.table_id ⊆ avail.map V2.Table.table_id :=
  ((List.erase_sublist t avail).map V2.Table.table_id).subset

theorem v2_assign_go_invariant (bye : Option Nat) :
    ∀ (ms : List (Nat × Nat)) (avail : List V2.Table)
      (outs : List ((Nat × Nat) × Option V2.Table)) (rest : List V2.Table),
      V2.assign_go bye ms avail = .ok (outs, rest) →
      (avail.map V2.Table.table_id).Nodup →
      (outs.Pairwise (fun a b => ∀ ta tb, a.2 = some ta → b.2 = some tb →
          ta.table_id ≠ tb.table_id) ∧
        ∀ o ∈ outs, ∀ t, o.2 = some t →
          t.table_id ∈ avail.map V2.Table.table_id) := by
  intro ms
  induction ms with
  | nil =>
    intro avail outs rest h hn
    rw [V2.assign_go] at h
    simp only [Except.ok.injEq, Prod.mk.injEq] at h
    obtain ⟨h1, h2⟩ := h
    subst h1
    exact ⟨List.Pairwise.nil, by simp⟩
  | cons m ms ih =>
    intro avail outs rest h hn
    rw [V2.assign_go] at h
    by_cases hb : V2.is_bye bye m = true
    · rw [if_pos hb] at h
      cases hgo : V2.assign_go bye ms avail with
      | error e => simp only [hgo] at h; simp at h
      | ok p =>
        obtain ⟨outs0, a2⟩ := p
        simp only [hgo, Except.ok.injEq, Prod.mk.injEq] at h
        obtain ⟨h1, h2⟩ := h
        subst h1
        obtain ⟨hp0, hsub0⟩ := ih avail outs0 a2 hgo hn
        constructor
        · refine List.Pairwise.cons ?_ hp0
          intro b hbmem ta tb hta htb
          simp at hta
        · intro o ho t hto
          rcases List.mem_cons.mp ho with rfl | ho0
          · simp at hto
          · exact hsub0 o ho0 t hto
    · rw [if_neg hb] at h
      cases hfb : V2.find_best_table m avail with
      | error e => simp only [hfb] at h; simp at h
      | ok r =>
        simp only [hfb] at h
        cases r with
        | none => simp at h
        | some t =>
          have htmem : t ∈ avail := v2_find_best_mem m avail t hfb
          cases hgo : V2.assign_go bye ms (avail.erase t) with
          | error e => simp only [hgo] at h; simp at h
          | ok p =>
            obtain ⟨outs0, a2⟩ := p
            simp only [hgo, Except.ok.injEq, Prod.mk.injEq] at h
            obtain ⟨h1, h2⟩ := h
            subst h1
            have hnd0 : ((avail.erase t).map V2.Table.table_id).Nodup :=
              hn.sublist ((List.erase_sublist t avail).map V2.Table.table_id)
            obtain ⟨hp0, hsub0⟩ := ih (avail.erase t) outs0 a2 hgo hnd0
            have hnotmem := v2_table_id_not_mem_erase avail t hn htmem
            constructor
            · refine List.Pairwise.cons ?_ hp0
              intro b hbmem ta tb hta htb
              have hta2 : ta = (t.add_team m.1).add_team m.2 :=
                (Option.some.inj hta).symm
              have htbmem : tb.table_id ∈
                  (avail.erase t).map V2.Table.table_id :=
                hsub0 b hbmem tb htb
              have hide : ta.table_id = t.table_id := by rw [hta2]; rfl
              intro heq
              rw [hide] at heq
              rw [heq] at hnotmem
              exact hnotmem htbmem
            · intro o ho tt htt
              rcases List.mem_cons.mp ho with rfl | ho0
              · have htt2 : tt = (t.add_team m.1).add_team m.2 :=
                  (Option.some.inj htt).symm
                subst htt2
                exact List.mem_map.mpr ⟨t, htmem, rfl⟩
              · exact v2_erase_map_subset avail t (hsub0 o ho0 tt htt)

/-- C1: within one resolved period, each table id appears at most once
among the assigned matches.  Proved for the v2 Week.assign_tables, the only
variant whose per-week loop completes with assignments: whenever the week
loop succeeds over a pool whose table ids are distinct, the assigned-table
ids of the produced matches are pairwise distinct, because every assigned
table is removed from the available set before the next match is served.
(The v1, v3 and plain variants satisfy the claim degenerately: their loops
only complete without error when no — or at most one — event got a table;
see the C9 theorem for v1.) -/
theorem v2_period_assignment_exclusive (bye : Option Nat)
    (ms : List (Nat × Nat)) (order : List V2.Table)
    (outs : List ((Nat × Nat) × Option V2.Table)) (rest : List V2.Table)
    (hn : (order.map V2.Table.table_id).Nodup)
    (h : V2.assign_tables bye order ms = .ok (outs, rest)) :
    outs.Pairwise (fun a b => ∀ ta tb, a.2 = some ta → b.2 = some tb →
      ta.table_id ≠ tb.table_id) :=
  (v2_assign_go_invariant bye ms order outs rest h hn).1

theorem v2_period_assignment_exclusive_witness :
    exV2Out.Pairwise (fun a b => ∀ ta tb, a.2 = some ta → b.2 = some tb →
      ta.table_id ≠ tb.table_id) :=
  v2_period_assignment_exclusive none [(1, 2), (3, 4)]
    [exV2TableA, exV2TableB] exV2Out [] (by decide) rfl
